import Mathlib

/-!
Verification development for a repository of introductory Go exercises and a
small Express server:
  * src/server/index.js      — Express app with routes GET /get and POST /post
  * src/webrequest/main.go   — HTTP client fetching a fixed URL and printing the body
  * src/webserver/main.go    — HTTP client targeting localhost:3000/get
  * src/unnamed/part_000     — error-handling example (doSomething always errs)
  * src/unnamed/part_001     — URL-parsing demo over Go net/url

Pure data and control flow of these programs are embedded shallowly.  Library
behaviour the programs invoke (the express.json body parser and JSON.stringify,
Go fmt.Println, Go net/url Parse and Query) is embedded faithfully to the
libraries' documented semantics on the fragment these programs exercise.
-/

namespace GolangPractice

/-! ## JSON values and JSON.stringify

Model of the JSON objects delivered by the express.json() middleware and of
JavaScript JSON.stringify as used by src/server/index.js.  String escaping
covers the quote and backslash; object fields keep insertion order, as
JSON.stringify does for string keys. -/

inductive Json where
  | null
  | bool (b : Bool)
  | num (n : Int)
  | str (s : String)
  | arr (elems : List Json)
  | obj (fields : List (String × Json))

/-- Escape a JSON string body: quote and backslash get a backslash. -/
def jsonEscape (s : String) : String :=
  String.mk (s.toList.foldr (fun c acc =>
    if c = '\x22' then '\\' :: '\x22' :: acc
    else if c = '\\' then '\\' :: '\\' :: acc
    else c :: acc) [])

mutual

/-- JavaScript JSON.stringify on the modelled JSON fragment. -/
def Json.stringify : Json → String
  | .null => "null"
  | .bool b => if b then "true" else "false"
  | .num n => toString n
  | .str s => "\x22" ++ jsonEscape s ++ "\x22"
  | .arr es => "[" ++ Json.stringifyElems es ++ "]"
  | .obj fs => "\x7b" ++ Json.stringifyFields fs ++ "\x7d"

/-- Comma-separated serialization of array elements. -/
def Json.stringifyElems : List Json → String
  | [] => ""
  | [e] => Json.stringify e
  | e :: es => Json.stringify e ++ "," ++ Json.stringifyElems es

/-- Comma-separated serialization of object fields, keys quoted. -/
def Json.stringifyFields : List (String × Json) → String
  | [] => ""
  | [(k, v)] => "\x22" ++ jsonEscape k ++ "\x22:" ++ Json.stringify v
  | (k, v) :: fs =>
      "\x22" ++ jsonEscape k ++ "\x22:" ++ Json.stringify v ++ "," ++ Json.stringifyFields fs

end

/-! ## The Express server of src/server/index.js -/

/-- HTTP request methods relevant to the server's routing, including HEAD and
OPTIONS, which Express treats specially on registered paths. -/
inductive Method where
  | GET
  | HEAD
  | POST
  | PUT
  | DELETE
  | OPTIONS
  deriving DecidableEq, Repr

/-- Rendering of a method for Express's default 404 page. -/
def Method.render : Method → String
  | .GET => "GET"
  | .HEAD => "HEAD"
  | .POST => "POST"
  | .PUT => "PUT"
  | .DELETE => "DELETE"
  | .OPTIONS => "OPTIONS"

/-- An inbound request as the handlers see it: the parsed JSON body is what
express.json() put in req.body (an empty object when no JSON body came). -/
structure Request where
  method : Method
  path : String
  body : Json

/-- An HTTP response: status code and textual body. -/
structure Response where
  status : Nat
  body : String
  deriving DecidableEq, Repr

/-- The two routes registered in src/server/index.js: app.get (line 9) and
app.post (line 14).  No other app.METHOD call occurs in the file. -/
def serverRoutes : List (Method × String) := [(.GET, "/get"), (.POST, "/post")]

/-- Express's default behaviour for a request matching no registered route:
status 404 with the framework's "Cannot METHOD path" page. -/
def expressDefault (m : Method) (p : String) : Response :=
  ⟨404, "Cannot " ++ m.render ++ " " ++ p⟩

/-- The Express app of src/server/index.js: dispatch over the two registered
routes; the GET handler sends the literal string, the POST handler sends
"Received data: " with the JSON re-serialization of req.body; res.send leaves
the default status 200.  Express's router also matches HEAD requests against
GET routes — HEAD /get runs the code's GET handler, the HTTP layer stripping
the body — and answers OPTIONS on a path with registered routes automatically
with status 200 and the Allow list as body (HEAD added alongside GET).
Anything else falls to Express's default not-found handler. -/
def app (req : Request) : Response :=
  if req.method = .GET ∧ req.path = "/get" then
    ⟨200, "Hello from GET!"⟩
  else if req.method = .HEAD ∧ req.path = "/get" then
    ⟨200, ""⟩
  else if req.method = .POST ∧ req.path = "/post" then
    ⟨200, "Received data: " ++ Json.stringify req.body⟩
  else if req.method = .OPTIONS ∧ (req.path = "/get" ∨ req.path = "/post") then
    ⟨200, if req.path = "/get" then "GET,HEAD" else "POST"⟩
  else
    expressDefault req.method req.path

/-! ## src/unnamed/part_000 — the error-handling example -/

/-- A Go error value: what the error interface exposes via Error(). -/
structure GoError where
  msg : String
  deriving DecidableEq, Repr

/-- doSomething of src/unnamed/part_000: returns
errors.New("unable to do something") on every call. -/
def doSomething : Option GoError := some ⟨"unable to do something"⟩

/-- main of src/unnamed/part_000: calls doSomething; on a non-nil error prints
"Error:" and the error, else prints "Success".  fmt.Println joins its operands
with one space.  The returned list is the lines printed. -/
def part000Main : List String :=
  match doSomething with
  | some e => ["Error: " ++ e.msg]
  | none => ["Success"]

/-! ## The Go HTTP clients of src/webrequest/main.go and src/webserver/main.go

Each client is embedded statement by statement.  The two external effects it
depends on — the outcome of http.Get and the outcome of ioutil.ReadAll on the
response body — are inputs of the run (a ClientWorld).  A GoState records the
lines printed, the stack of deferred functions, and whether the response body
was acquired and closed; as in Go, the deferred stack runs both on normal
return and on panic unwinding. -/

/-- The response value http.Get delivers on success. -/
structure HttpResponse where
  statusCode : Int
  contentLength : Int
  deriving DecidableEq, Repr

/-- The outcome of ioutil.ReadAll on the response body: either it returns
(bytes read so far, error or nil), or execution aborts inside the read (a
run-time panic), never reaching the statements after the call. -/
inductive ReadResult where
  | bytes (data : String) (err : Option GoError)
  | abort
  deriving DecidableEq, Repr

/-- The external world one client run observes. -/
structure ClientWorld where
  transport : Except GoError HttpResponse
  readResult : ReadResult

/-- The single deferred action these programs register. -/
inductive GoAction where
  | closeBody
  deriving DecidableEq, Repr

/-- Mutable run state: printed lines, deferred-function stack (most recent
first), and the body-resource flags. -/
structure GoState where
  printed : List String
  deferred : List GoAction
  bodyAcquired : Bool
  bodyClosed : Bool
  deriving DecidableEq, Repr

/-- Run the deferred stack at function exit (normal return or panic
unwinding): a deferred Body.Close marks the body closed. -/
def GoState.runDeferred (s : GoState) : GoState :=
  s.deferred.foldl
    (fun st a => match a with
      | .closeBody => { st with bodyClosed := true })
    { s with deferred := [] }

/-- How one client run ends. -/
inductive Outcome where
  | panicked (e : GoError)
  | abortedDuringRead
  | completed
  deriving DecidableEq, Repr

/-- main of src/webrequest/main.go, statement by statement:
prints "WebRequest Practice"; http.Get; panics on a non-nil error; reads the
body, the read error unchecked; fmt.Println("Data%v", string(databyte)) — a
Println, not a Printf, so the directive is printed literally and Println joins
the two operands with one space; only then registers defer
response.Body.Close().  An abort inside ReadAll unwinds before that defer
statement ran. -/
def webrequestMain (w : ClientWorld) : GoState × Outcome :=
  let s : GoState := ⟨["WebRequest Practice"], [], false, false⟩
  match w.transport with
  | .error e => (s.runDeferred, .panicked e)
  | .ok _resp =>
    let s := { s with bodyAcquired := true }
    match w.readResult with
    | .abort => (s.runDeferred, .abortedDuringRead)
    | .bytes data _err =>
      let s := { s with printed := s.printed ++ ["Data%v " ++ data] }
      let s := { s with deferred := .closeBody :: s.deferred }
      (s.runDeferred, .completed)

/-- myGetrequest of src/webserver/main.go, statement by statement: http.Get on
the constant http://localhost:3000/get; panics on a non-nil error; registers
defer response.Body.Close() right away; prints status code and content length
(each fmt.Println joins its operands with one space); reads the body with the
error discarded by the blank identifier; prints the bytes as a string. -/
def myGetrequest (w : ClientWorld) : GoState × Outcome :=
  let s : GoState := ⟨[], [], false, false⟩
  match w.transport with
  | .error e => (s.runDeferred, .panicked e)
  | .ok resp =>
    let s := { s with bodyAcquired := true }
    let s := { s with deferred := .closeBody :: s.deferred }
    let s := { s with printed := s.printed ++
      ["Status code:  " ++ toString resp.statusCode,
       "COntent Length:  " ++ toString resp.contentLength] }
    match w.readResult with
    | .abort => (s.runDeferred, .abortedDuringRead)
    | .bytes data _ =>
      let s := { s with printed := s.printed ++ [data] }
      (s.runDeferred, .completed)

/-- main of src/webserver/main.go: prints "Local host" then calls
myGetrequest. -/
def webserverMain (w : ClientWorld) : GoState × Outcome :=
  let r := myGetrequest w
  ({ r.1 with printed := "Local host" :: r.1.printed }, r.2)

/-! ## Go net/url, as exercised by src/unnamed/part_001

Embedding of the net/url fragment the demo calls: Parse (scheme splitting,
authority with user-info and port validation, percent-escape validation of
path, fragment and host), the Port method, ParseQuery and the Query method.
Outside the modelled fragment: bracketed IPv6 hosts, the host-mode
restriction on which bytes may be percent-encoded, and user-info character
validation.  Error messages are abbreviated to a stable text. -/

/-- Go's ishex: is the character a hexadecimal digit. -/
def ishex (c : Char) : Bool :=
  ('0' ≤ c && c ≤ '9') || ('a' ≤ c && c ≤ 'f') || ('A' ≤ c && c ≤ 'F')

/-- Go's unhex: hexadecimal digit value. -/
def unhex (c : Char) : Nat :=
  if '0' ≤ c ∧ c ≤ '9' then c.toNat - '0'.toNat
  else if 'a' ≤ c ∧ c ≤ 'f' then c.toNat - 'a'.toNat + 10
  else if 'A' ≤ c ∧ c ≤ 'F' then c.toNat - 'A'.toNat + 10
  else 0

/-- The escape contexts of net/url that this fragment distinguishes: the only
behavioural difference modelled is that a plus becomes a space in a query
component only. -/
inductive Encoding where
  | path
  | host
  | queryComponent
  deriving DecidableEq, Repr

/-- Go's unescape: percent-decoding; a percent not followed by two hex digits
is an invalid URL escape. -/
def unescape (mode : Encoding) : List Char → Except GoError (List Char)
  | [] => .ok []
  | '%' :: a :: b :: rest =>
    if ishex a ∧ ishex b then
      (fun t => Char.ofNat (16 * unhex a + unhex b) :: t) <$> unescape mode rest
    else .error ⟨"invalid URL escape"⟩
  | ['%'] => .error ⟨"invalid URL escape"⟩
  | ['%', _] => .error ⟨"invalid URL escape"⟩
  | '+' :: rest =>
    (fun t => (if mode = .queryComponent then ' ' else '+') :: t) <$> unescape mode rest
  | c :: rest => (fun t => c :: t) <$> unescape mode rest

/-- Loop of Go's getScheme: scan for the colon ending a scheme; a digit, plus,
minus or dot cannot start one, any other character means there is none, and a
colon first means a missing protocol scheme. -/
def getSchemeLoop (orig : List Char) : Nat → List Char → Except GoError (List Char × List Char)
  | _, [] => .ok ([], orig)
  | i, c :: rest =>
    if c.isAlpha then getSchemeLoop orig (i + 1) rest
    else if c.isDigit ∨ c = '+' ∨ c = '-' ∨ c = '.' then
      if i = 0 then .ok ([], orig) else getSchemeLoop orig (i + 1) rest
    else if c = ':' then
      if i = 0 then .error ⟨"missing protocol scheme"⟩
      else .ok (orig.take i, rest)
    else .ok ([], orig)

/-- Go's getScheme: split a URL into scheme and remainder. -/
def getScheme (cs : List Char) : Except GoError (List Char × List Char) :=
  getSchemeLoop cs 0 cs

/-- Split at the first occurrence of a separator, the separator consumed; the
whole input and an empty remainder when absent (strings.Cut / Go's split). -/
def cutFirst (sep : Char) : List Char → List Char × List Char
  | [] => ([], [])
  | c :: rest =>
    if c = sep then ([], rest)
    else
      let r := cutFirst sep rest
      (c :: r.1, r.2)

/-- Index of the last occurrence of a character, if any. -/
def lastIndexOf (sep : Char) (cs : List Char) : Option Nat :=
  (cs.reverse.findIdx? (· = sep)).map (fun j => cs.length - 1 - j)

/-- Split the part after "//" into authority and path, the path keeping its
leading slash. -/
def spanUntilSlash : List Char → List Char × List Char
  | [] => ([], [])
  | c :: rest =>
    if c = '/' then ([], c :: rest)
    else
      let r := spanUntilSlash rest
      (c :: r.1, r.2)

/-- parseAuthority's user-info split: at the last at-sign; empty user-info
when there is none. -/
def splitUserinfo (cs : List Char) : String × List Char :=
  match lastIndexOf '@' cs with
  | some i => (String.mk (cs.take i), cs.drop (i + 1))
  | none => ("", cs)

/-- Go's validOptionalPort: empty, or a colon followed by digits only. -/
def validOptionalPort : List Char → Bool
  | [] => true
  | ':' :: rest => rest.all Char.isDigit
  | _ => false

/-- Go's parseHost on non-bracketed hosts: the part from the last colon must
be a valid optional port, and percent-escapes in the host must be valid. -/
def parseHost (cs : List Char) : Except GoError (List Char) :=
  match lastIndexOf ':' cs with
  | some i =>
    if validOptionalPort (cs.drop i) then unescape .host cs
    else .error ⟨"invalid port after host"⟩
  | none => unescape .host cs

/-- The decomposition net/url's Parse produces, restricted to the components
src/unnamed/part_001 prints; rawRemainder is Go's Opaque field. -/
structure GoURL where
  scheme : String
  user : String
  host : String
  path : String
  rawRemainder : String
  rawQuery : String
  deriving DecidableEq, Repr

/-- Go net/url Parse: cut the fragment, split the scheme (lowercased), cut the
raw query at the first question mark (left unvalidated), then either parse an
authority plus escape-checked path, record an opaque remainder, or
escape-check a plain path. -/
def urlParse (s : String) : Except GoError GoURL := do
  let cs := s.toList
  let (beforeFrag, fragRaw) := cutFirst '#' cs
  let _frag ← unescape .path fragRaw
  let (scheme0, rest0) ← getScheme beforeFrag
  let scheme := scheme0.map Char.toLower
  let (rest1, rawQuery) := cutFirst '?' rest0
  if rest1.take 2 = ['/', '/'] then
    let after := rest1.drop 2
    let (authority, pathRaw) := spanUntilSlash after
    let (user, hostRaw) := splitUserinfo authority
    let host ← parseHost hostRaw
    let path ← unescape .path pathRaw
    pure ⟨String.mk scheme, user, String.mk host, String.mk path, "", String.mk rawQuery⟩
  else if scheme ≠ [] ∧ rest1.take 1 ≠ ['/'] then
    pure ⟨String.mk scheme, "", "", "", String.mk rest1, String.mk rawQuery⟩
  else do
    let path ← unescape .path rest1
    pure ⟨String.mk scheme, "", "", String.mk path, "", String.mk rawQuery⟩

/-- The Port method of URL: the digits after the host's last colon when that
suffix is a valid port, the empty string otherwise. -/
def GoURL.portOf (u : GoURL) : String :=
  let cs := u.host.toList
  match lastIndexOf ':' cs with
  | some i =>
    if validOptionalPort (cs.drop i) then String.mk (cs.drop (i + 1)) else ""
  | none => ""

/-- url.Values insertion: keys stay unique, a value for a present key is
appended to that key's ordered sequence. -/
def addValue : List (String × List String) → String → String → List (String × List String)
  | [], k, v => [(k, [v])]
  | (k0, vs) :: rest, k, v =>
    if k0 = k then (k0, vs ++ [v]) :: rest
    else (k0, vs) :: addValue rest k v

/-- One key=value pair of Go's parseQuery loop: a semicolon makes the pair
invalid, an empty pair is skipped, the key and value are query-unescaped and
the pair is dropped when either fails (the first escape error is kept). -/
def processPair (m : List (String × List String)) (err : Option GoError) (pair : List Char) :
    List (String × List String) × Option GoError :=
  if pair.contains ';' then (m, some ⟨"invalid semicolon separator in query"⟩)
  else if pair = [] then (m, err)
  else
    let (kRaw, vRaw) := cutFirst '=' pair
    match unescape .queryComponent kRaw with
    | .error e => (m, err <|> some e)
    | .ok k =>
      match unescape .queryComponent vRaw with
      | .error e => (m, err <|> some e)
      | .ok v => (addValue m (String.mk k) (String.mk v), err)

/-- Loop of Go's parseQuery: accumulate the current pair until an ampersand,
then process it. -/
def parseQueryLoop (m : List (String × List String)) (err : Option GoError)
    (cur : List Char) : List Char → List (String × List String) × Option GoError
  | [] => processPair m err cur
  | '&' :: rest =>
    let r := processPair m err cur
    parseQueryLoop r.1 r.2 [] rest
  | c :: rest => parseQueryLoop m err (cur ++ [c]) rest

/-- Go net/url ParseQuery: the mapping built from the pairs, plus the error it
would report (which the Query method discards). -/
def parseQuery (cs : List Char) : List (String × List String) × Option GoError :=
  match cs with
  | [] => ([], none)
  | q => parseQueryLoop [] none [] q

/-- The Query method of URL: ParseQuery on RawQuery with the error silently
discarded — malformed value pairs are silently dropped. -/
def GoURL.queryOf (u : GoURL) : List (String × List String) :=
  (parseQuery u.rawQuery.toList).1

/-- The hard-coded URL constant of src/unnamed/part_001. -/
def part001Url : String :=
  "https://www.fiverr.com/ut_works/develop-a-game-prototype-in-unreal-engine-using-blueprints-and-cpp?context_referrer=tailored_homepage_perseus&source=recently_viewed_gigs&ref_ctx_id=81fdc44fce1549e3ba55dfbbcee88d3f&context=recommendation&pckg_id=1&pos=1&context_alg=recently_viewed&imp_id=94934311-06cc-4d35-b9f6-974360f9773e"

/-- How a run of src/unnamed/part_001's main ends, keeping the decomposition
it prints (Scheme, Host, Path, User, RawQuery, Port, Query). -/
inductive Part001Run where
  | panicked (e : GoError)
  | completed (u : GoURL) (q : List (String × List String))
  deriving DecidableEq, Repr

/-- main of src/unnamed/part_001, parameterised by the URL string it parses:
url.Parse; a non-nil error is fatal via panic; otherwise each component and
result.Query() are printed. -/
def part001Main (input : String) : Part001Run :=
  match urlParse input with
  | .error e => .panicked e
  | .ok u => .completed u u.queryOf

/-! ## Claims about the server routes -/

/-- C1: every request with method GET and path /get gets status 200 and the
body exactly "Hello from GET!", whatever the request body. -/
theorem c1_get_route (b : Json) : app ⟨.GET, "/get", b⟩ = ⟨200, "Hello from GET!"⟩ := rfl

/-- C2: every POST /post request with a JSON body is answered with status 200
and body "Received data: " followed by the JSON re-serialization of the parsed
request body; in particular the body for the object with field a mapped to 1
re-encodes that object after "Received data: ". -/
theorem c2_post_echo :
    (∀ b : Json, app ⟨.POST, "/post", b⟩ =
      ⟨200, "Received data: " ++ Json.stringify b⟩) ∧
    app ⟨.POST, "/post", .obj [("a", .num 1)]⟩ =
      ⟨200, "Received data: " ++ "\x7b\x22a\x22:1\x7d"⟩ :=
  ⟨fun _ => rfl, rfl⟩

/-- Counterexample to C8: (HEAD, /get) is not one of the two registered
method/path pairs, yet Express serves HEAD /get with the code's GET handler
(status 200, body stripped by the HTTP layer), not the framework's default
not-found response. -/
theorem c8_counterexample :
    (Method.HEAD, "/get") ∉ serverRoutes ∧
    app ⟨.HEAD, "/get", .obj []⟩ ≠ expressDefault .HEAD "/get" ∧
    app ⟨.HEAD, "/get", .obj []⟩ = ⟨200, ""⟩ :=
  ⟨by decide, by decide, rfl⟩

/-- C8 as amended: exactly the two routes (GET, /get) and (POST, /post) are
registered; every request to a path other than /get and /post receives
Express's default not-found response, as does every request on those paths
whose method matches no route and is neither HEAD nor OPTIONS; but HEAD /get
is served by the code's GET handler (body stripped), HEAD /post still falls to
the default, and OPTIONS on a registered path receives Express's automatic
Allow response. -/
theorem c8_two_routes :
    serverRoutes = [(.GET, "/get"), (.POST, "/post")] ∧
    (∀ req : Request, req.path ≠ "/get" → req.path ≠ "/post" →
      app req = expressDefault req.method req.path) ∧
    (∀ req : Request, (req.method, req.path) ∉ serverRoutes →
      req.method ≠ .HEAD → req.method ≠ .OPTIONS →
      app req = expressDefault req.method req.path) ∧
    (∀ b, app ⟨.HEAD, "/get", b⟩ = ⟨200, ""⟩) ∧
    (∀ b, app ⟨.HEAD, "/post", b⟩ = expressDefault .HEAD "/post") ∧
    (∀ b, app ⟨.OPTIONS, "/get", b⟩ = ⟨200, "GET,HEAD"⟩) ∧
    (∀ b, app ⟨.OPTIONS, "/post", b⟩ = ⟨200, "POST"⟩) := by
  refine ⟨rfl, fun req h1 h2 => ?_, fun req hm hh ho => ?_,
    fun b => rfl, fun b => rfl, fun b => rfl, fun b => rfl⟩
  · unfold app
    rw [if_neg (fun hc => h1 hc.2), if_neg (fun hc => h1 hc.2),
      if_neg (fun hc => h2 hc.2), if_neg (fun hc => hc.2.elim h1 h2)]
  · have hget : ¬(req.method = .GET ∧ req.path = "/get") := fun hc => by
      simp [serverRoutes, hc.1, hc.2] at hm
    have hpost : ¬(req.method = .POST ∧ req.path = "/post") := fun hc => by
      simp [serverRoutes, hc.1, hc.2] at hm
    unfold app
    rw [if_neg hget, if_neg (fun hc => hh hc.1), if_neg hpost,
      if_neg (fun hc => ho hc.1)]

/-- Witness for the amended C8 at two concrete requests: GET on the
unregistered path /nope, and PUT on the registered path /get. -/
theorem c8_two_routes_witness :
    app ⟨.GET, "/nope", .obj []⟩ = expressDefault .GET "/nope" ∧
    app ⟨.PUT, "/get", .obj []⟩ = expressDefault .PUT "/get" :=
  ⟨c8_two_routes.2.1 ⟨.GET, "/nope", .obj []⟩ (by decide) (by decide),
   c8_two_routes.2.2.1 ⟨.PUT, "/get", .obj []⟩ (by decide) (by decide) (by decide)⟩

/-! ## Claims about the Go clients -/

/-- C4: in both clients, a transport-level failure of http.Get is fatal — the
run panics with the underlying error, with no retry and nothing further
printed; a successful GET is followed by reading the whole body and printing
it, the run completing normally. -/
theorem c4_transport_failure_fatal :
    (∀ e r, webrequestMain ⟨.error e, r⟩ =
      (⟨["WebRequest Practice"], [], false, false⟩, .panicked e)) ∧
    (∀ e r, webserverMain ⟨.error e, r⟩ =
      (⟨["Local host"], [], false, false⟩, .panicked e)) ∧
    (∀ resp data, webrequestMain ⟨.ok resp, .bytes data none⟩ =
      (⟨["WebRequest Practice", "Data%v " ++ data], [], true, true⟩, .completed)) ∧
    (∀ resp data, webserverMain ⟨.ok resp, .bytes data none⟩ =
      (⟨["Local host", "Status code:  " ++ toString resp.statusCode,
         "COntent Length:  " ++ toString resp.contentLength, data], [], true, true⟩,
       .completed)) :=
  ⟨fun _ _ => rfl, fun _ _ => rfl, fun _ _ => rfl, fun _ _ => rfl⟩

/-- C5: the claim of guaranteed release on all exit paths fails on
src/webrequest/main.go — when the read aborts, the body was acquired but the
deferred close, registered only after the read, never runs; the body is closed
in every completed run of webrequest and on every exit path of webserver's
myGetrequest, whose defer precedes the read. -/
theorem c5_close_skipped_on_read_abort :
    (webrequestMain ⟨.ok ⟨200, 5⟩, .abort⟩).1.bodyAcquired = true ∧
    (webrequestMain ⟨.ok ⟨200, 5⟩, .abort⟩).1.bodyClosed = false ∧
    (∀ resp data err, (webrequestMain ⟨.ok resp, .bytes data err⟩).1.bodyClosed = true) ∧
    (∀ resp r, (myGetrequest ⟨.ok resp, r⟩).1.bodyClosed = true) := by
  refine ⟨rfl, rfl, fun _ _ _ => rfl, fun resp r => ?_⟩
  cases r <;> rfl

/-- C7: in every completed run of the body-printing client, the printed line
holds the literal characters percent-v from the malformed format directive —
Println does not substitute — followed (after Println's separating space) by
the response body bytes. -/
theorem c7_literal_format_directive (resp : HttpResponse) (data : String)
    (err : Option GoError) :
    (webrequestMain ⟨.ok resp, .bytes data err⟩).1.printed =
      ["WebRequest Practice", "Data" ++ "%v" ++ " " ++ data] := rfl

/-- C10: in both clients the error returned by reading the body is never
checked — after a successful GET, a run whose read reports an error still
prints the bytes the read produced and completes normally. -/
theorem c10_read_error_ignored :
    (∀ resp data e, webrequestMain ⟨.ok resp, .bytes data (some e)⟩ =
      (⟨["WebRequest Practice", "Data%v " ++ data], [], true, true⟩, .completed)) ∧
    (∀ resp data e, webserverMain ⟨.ok resp, .bytes data (some e)⟩ =
      (⟨["Local host", "Status code:  " ++ toString resp.statusCode,
         "COntent Length:  " ++ toString resp.contentLength, data], [], true, true⟩,
       .completed)) :=
  ⟨fun _ _ _ => rfl, fun _ _ _ => rfl⟩

/-! ## Claims about the error example and the URL demo -/

/-- C9: doSomething returns the non-nil error "unable to do something" on
every call, so main prints "Error: unable to do something" and the Success
branch is never taken. -/
theorem c9_error_branch_always :
    doSomething = some ⟨"unable to do something"⟩ ∧
    part000Main = ["Error: unable to do something"] ∧
    "Success" ∉ part000Main :=
  ⟨rfl, rfl, by decide⟩

/-- C3: parsing "https://host.example/path?x=1&x=2" yields scheme https, host
host.example, path /path, and a query mapping with unique keys in which x maps
to the ordered sequence of 1 then 2. -/
theorem c3_parse_url :
    part001Main "https://host.example/path?x=1&x=2" =
      .completed ⟨"https", "", "host.example", "/path", "", "x=1&x=2"⟩
        [("x", ["1", "2"])] ∧
    ([("x", ["1", "2"])].map Prod.fst).Nodup :=
  ⟨rfl, by decide⟩

/-- Counterexample to C6: the URL "https://host.example/path?x=%zz" is
malformed (invalid percent-escape), yet the run completes without any parse
failure and the query mapping silently drops the malformed pair — a
silently-wrong decomposition rather than a fatal error. -/
theorem c6_counterexample :
    part001Main "https://host.example/path?x=%zz" =
      .completed ⟨"https", "", "host.example", "/path", "", "x=%zz"⟩ [] := rfl

/-- C6 as amended: a malformed URL whose defect url.Parse detects (for
example an invalid percent-escape in the path) is a fatal parse failure — the
run panics with that error; but a URL malformed only inside its query string
parses successfully, and Query() silently discards the malformed pairs while
keeping the well-formed ones, discarding the error ParseQuery reports. -/
theorem c6_parse_error_fatal :
    (∀ s e, urlParse s = .error e → part001Main s = .panicked e) ∧
    (parseQuery "x=%zz&y=2".toList).1 = [("y", ["2"])] ∧
    (parseQuery "x=%zz&y=2".toList).2.isSome = true := by
  refine ⟨fun s e h => ?_, rfl, rfl⟩
  unfold part001Main
  rw [h]

/-- Witness for the amended C6 at a URL with an invalid percent-escape in its
path: the run panics. -/
theorem c6_parse_error_fatal_witness :
    part001Main "https://host.example/%zz" = .panicked ⟨"invalid URL escape"⟩ :=
  c6_parse_error_fatal.1 "https://host.example/%zz" ⟨"invalid URL escape"⟩ rfl

end GolangPractice
